import Mathlib

/-!
Verification of the multipart request ingestion and attachment
normalization engine of the Gemini image-generation FastAPI service
(src/main.py), as a shallow embedding in Lean 4.

The first section models the Python string primitives the service uses
(str.split, str.split with maxsplit 1, re.search for the form-data name
attribute, str.strip, substring tests, os.path.splitext, str.lower) as
executable functions over lists of characters.  The second section embeds
the service's own functions (is_valid_upload_file, validate_image_file,
pil_from_upload, save_pil, save_uploaded_image, the /generate endpoint
with its manual multipart fallback, the /upload endpoint).  The last
section states and settles the claims about the service.
-/

/-- Cons a character onto the head chunk of a split result (helper for
the model of Python str.split). -/
def consHead (c : Char) : List (List Char) → List (List Char)
  | [] => [[c]]
  | h :: t => (c :: h) :: t

/-- Whether the first list is a prefix of the second, by nested
matching (so that it reduces even when only an initial segment of the
second list is in constructor form). -/
def prefB : List Char → List Char → Bool
  | [], _ => true
  | a :: as, l =>
    match l with
    | [] => false
    | b :: bs => (a == b) && prefB as bs

theorem prefB_eq_isPrefixOf : ∀ l1 l2 : List Char,
    prefB l1 l2 = l1.isPrefixOf l2 := by
  intro l1
  induction l1 with
  | nil => intro l2; cases l2 <;> rfl
  | cons a as ih =>
    intro l2
    cases l2 with
    | nil => rfl
    | cons b bs =>
      show ((a == b) && prefB as bs) = ((a == b) && as.isPrefixOf bs)
      rw [ih bs]

theorem prefB_iff {l1 l2 : List Char} : prefB l1 l2 = true ↔ l1 <+: l2 := by
  rw [prefB_eq_isPrefixOf]
  exact List.isPrefixOf_iff_prefix

/-- Model of Python str.split(sep) for a non-empty separator: splits on
every non-overlapping occurrence of sep, scanning left to right. -/
def pySplitCore (sep : List Char) : List Char → List (List Char)
  | [] => [[]]
  | c :: rest =>
    if h : sep ≠ [] ∧ prefB sep (c :: rest) then
      [] :: pySplitCore sep ((c :: rest).drop sep.length)
    else
      consHead c (pySplitCore sep rest)
termination_by s => s.length
decreasing_by
  · have hlen : 0 < sep.length := by
      cases sep with
      | nil => exact absurd rfl h.1
      | cons a l => simp
    simp only [List.length_drop, List.length_cons]
    omega
  · simp only [List.length_cons]
    omega

/-- Model of Python str.split(sep, 1): position and remainder of the
first occurrence of sep, or none when sep does not occur. -/
def pySplit1 (sep : List Char) : List Char → Option (List Char × List Char)
  | [] => none
  | c :: rest =>
    if prefB sep (c :: rest) then some ([], (c :: rest).drop sep.length)
    else (pySplit1 sep rest).map (fun pr => (c :: pr.1, pr.2))

/-- The characters before the next double quote, or none when no double
quote follows (helper for the model of the name="..." regex search). -/
def takeUntilQuote : List Char → Option (List Char)
  | [] => none
  | c :: rest =>
    if c = '"' then some []
    else (takeUntilQuote rest).map (fun l => c :: l)

/-- The text that the regex search for a name attribute scans for. -/
def nameSep : List Char := ['n', 'a', 'm', 'e', '=', '"']

/-- Model of re.search over a part for the name attribute pattern: scan
left to right; at the first position where the attribute opener matches
and at least one non-quote character stands before a closing quote,
capture those characters; otherwise keep scanning. -/
def reSearchName : List Char → Option (List Char)
  | [] => none
  | c :: rest =>
    if prefB nameSep (c :: rest) then
      match takeUntilQuote ((c :: rest).drop nameSep.length) with
      | some cap => if cap = [] then reSearchName rest else some cap
      | none => reSearchName rest
    else reSearchName rest

/-- Model of the Python substring test (the in operator on str). -/
def isInfixB (sub : List Char) : List Char → Bool
  | [] => sub.isEmpty
  | c :: rest => prefB sub (c :: rest) || isInfixB sub rest

/-- The whitespace set of Python str.strip with no argument (ASCII part). -/
def pyIsSpaceB (c : Char) : Bool :=
  c == ' ' || c == '\t' || c == '\n' || c == '\r' || c == '\x0B' || c == '\x0C'

/-- Model of Python str.strip(): drop leading and trailing whitespace. -/
def pyStrip (l : List Char) : List Char :=
  ((l.dropWhile pyIsSpaceB).reverse.dropWhile pyIsSpaceB).reverse

/-- A carriage-return line-feed pair, the line separator of multipart bodies. -/
def crlf : List Char := ['\r', '\n']

/-- The blank-line separator between a part's headers and its content. -/
def crlf2 : List Char := ['\r', '\n', '\r', '\n']

/-- The start of a boundary delimiter line inside a part's content. -/
def crlfDashDash : List Char := ['\r', '\n', '-', '-']

/-- Two dashes, the prefix of every boundary delimiter. -/
def twoDash : List Char := ['-', '-']

/-- No suffix of a is touched by sep: no non-empty suffix of a has sep as
a prefix and none is a proper start of sep.  Sufficient for sep to have
no occurrence beginning inside a in any string of the shape a ++ sep ++ r. -/
def SepCleanB (sep a : List Char) : Bool :=
  a.tails.all (fun u => u.isEmpty || (!(prefB sep u) && !(prefB u sep)))

/-- sep occurs nowhere in s. -/
def NoOccB (sep s : List Char) : Bool :=
  s.tails.all (fun u => !(prefB sep u))

theorem sepCleanB_spec {sep a : List Char} (h : SepCleanB sep a = true) :
    ∀ u, u <:+ a → u ≠ [] → ¬ sep <+: u ∧ ¬ u <+: sep := by
  intro u hu hne
  have := (List.all_eq_true.mp h) u ((List.mem_tails u a).mpr hu)
  simp only [Bool.or_eq_true, Bool.and_eq_true, Bool.not_eq_true',
    List.isEmpty_iff] at this
  rcases this with h1 | h2
  · exact absurd h1 hne
  · constructor
    · intro hp
      have := prefB_iff.mpr hp
      rw [h2.1] at this
      exact Bool.false_ne_true this
    · intro hp
      have := prefB_iff.mpr hp
      rw [h2.2] at this
      exact Bool.false_ne_true this

theorem sepCleanB_cons {sep : List Char} {c : Char} {a : List Char}
    (h : SepCleanB sep (c :: a) = true) : SepCleanB sep a = true := by
  simp only [SepCleanB, List.all_eq_true] at h ⊢
  intro u hu
  exact h u (by
    rw [List.mem_tails] at hu ⊢
    exact hu.trans (List.suffix_cons c a))

theorem noOccB_cons {sep : List Char} {c : Char} {s : List Char}
    (h : NoOccB sep (c :: s) = true) : NoOccB sep s = true := by
  simp only [NoOccB, List.all_eq_true] at h ⊢
  intro u hu
  exact h u (by
    rw [List.mem_tails] at hu ⊢
    exact hu.trans (List.suffix_cons c s))

theorem prefix_cases {sep x y : List Char} (h : sep <+: x ++ y) :
    sep <+: x ∨ x <+: sep := by
  rcases le_or_lt sep.length x.length with hle | hlt
  · left
    have heq := List.prefix_iff_eq_take.mp h
    rw [List.take_append_eq_append_take, Nat.sub_eq_zero_of_le hle,
      List.take_zero, List.append_nil] at heq
    rw [heq]
    exact List.take_prefix sep.length x
  · right
    obtain ⟨t, ht⟩ := h
    have heq := congrArg (List.take x.length) ht
    rw [List.take_append_eq_append_take,
      Nat.sub_eq_zero_of_le (Nat.le_of_lt hlt), List.take_zero,
      List.append_nil, List.take_left] at heq
    rw [← heq]
    exact List.take_prefix x.length sep

theorem prefB_self_append (l t : List Char) :
    prefB l (l ++ t) = true :=
  prefB_iff.mpr (List.prefix_append l t)

/-- Splitting a ++ sep ++ rest at the first boundary: when no occurrence
of sep begins inside a, the first chunk is exactly a. -/
theorem pySplitCore_append (sep rest : List Char) (hsep : sep ≠ []) :
    ∀ a : List Char, SepCleanB sep a = true →
      pySplitCore sep (a ++ sep ++ rest) = a :: pySplitCore sep rest := by
  intro a
  induction a with
  | nil =>
    intro _
    cases sep with
    | nil => exact absurd rfl hsep
    | cons s0 s' =>
      rw [List.nil_append]
      show pySplitCore (s0 :: s') (s0 :: (s' ++ rest)) = [] :: pySplitCore (s0 :: s') rest
      rw [pySplitCore]
      rw [dif_pos ⟨hsep, by
        show prefB (s0 :: s') ((s0 :: s') ++ rest) = true
        exact prefB_self_append _ _⟩]
      congr 1
      congr 1
      show ((s0 :: s') ++ rest).drop (s0 :: s').length = rest
      exact List.drop_left _ _
  | cons c a' ih =>
    intro hclean
    have hnp : ¬ prefB sep ((c :: a') ++ sep ++ rest) = true := by
      intro hp
      have hp' : sep <+: (c :: a') ++ (sep ++ rest) := by
        rw [← List.append_assoc]
        exact prefB_iff.mp hp
      have hcl := sepCleanB_spec hclean (c :: a') (List.suffix_refl _) (by simp)
      rcases prefix_cases hp' with h1 | h2
      · exact hcl.1 h1
      · exact hcl.2 h2
    have hstep : (c :: a') ++ sep ++ rest = c :: (a' ++ sep ++ rest) := by simp
    rw [hstep, pySplitCore]
    rw [dif_neg (by
      intro hc
      exact hnp (by rw [hstep]; exact hc.2))]
    rw [ih (sepCleanB_cons hclean)]
    rfl

/-- When sep occurs nowhere in s, splitting returns s whole. -/
theorem pySplitCore_no_occ (sep : List Char) :
    ∀ s : List Char, NoOccB sep s = true → pySplitCore sep s = [s] := by
  intro s
  induction s with
  | nil => intro _; simp [pySplitCore]
  | cons c rest ih =>
    intro hno
    have hnp : ¬ prefB sep (c :: rest) = true := by
      have := (List.all_eq_true.mp hno) (c :: rest)
        ((List.mem_tails _ _).mpr (List.suffix_refl _))
      simp only [Bool.not_eq_true'] at this
      rw [this]
      exact Bool.false_ne_true
    rw [pySplitCore, dif_neg (fun hc => hnp hc.2), ih (noOccB_cons hno)]
    rfl

/-- Splitting a ++ sep ++ rest once: when no occurrence of sep begins
inside a, the split is at the sep shown. -/
theorem pySplit1_append (sep rest : List Char) (hsep : sep ≠ []) :
    ∀ a : List Char, SepCleanB sep a = true →
      pySplit1 sep (a ++ sep ++ rest) = some (a, rest) := by
  intro a
  induction a with
  | nil =>
    intro _
    cases sep with
    | nil => exact absurd rfl hsep
    | cons s0 s' =>
      rw [List.nil_append]
      show pySplit1 (s0 :: s') (s0 :: (s' ++ rest)) = some ([], rest)
      rw [pySplit1]
      rw [if_pos (by
        show prefB (s0 :: s') ((s0 :: s') ++ rest) = true
        exact prefB_self_append _ _)]
      congr 2
      show ((s0 :: s') ++ rest).drop (s0 :: s').length = rest
      exact List.drop_left _ _
  | cons c a' ih =>
    intro hclean
    have hnp : ¬ prefB sep ((c :: a') ++ sep ++ rest) = true := by
      intro hp
      have hp' : sep <+: (c :: a') ++ (sep ++ rest) := by
        rw [← List.append_assoc]
        exact prefB_iff.mp hp
      have hcl := sepCleanB_spec hclean (c :: a') (List.suffix_refl _) (by simp)
      rcases prefix_cases hp' with h1 | h2
      · exact hcl.1 h1
      · exact hcl.2 h2
    have hstep : (c :: a') ++ sep ++ rest = c :: (a' ++ sep ++ rest) := by simp
    rw [hstep, pySplit1]
    rw [if_neg (by
      intro hc
      exact hnp (by rw [hstep]; exact hc))]
    rw [ih (sepCleanB_cons hclean)]
    rfl

/-- Stripping ignores an appended all-whitespace tail. -/
theorem pyStrip_append_ws (v w : List Char)
    (hw : ∀ c ∈ w, pyIsSpaceB c = true) : pyStrip (v ++ w) = pyStrip v := by
  unfold pyStrip
  rw [List.dropWhile_append]
  by_cases hv : (v.dropWhile pyIsSpaceB).isEmpty = true
  · rw [if_pos hv]
    have hwnil : w.dropWhile pyIsSpaceB = [] := by
      rw [List.dropWhile_eq_nil_iff]
      exact fun x hx => hw x hx
    have hvnil : v.dropWhile pyIsSpaceB = [] := by
      rwa [List.isEmpty_iff] at hv
    rw [hwnil, hvnil]
  · rw [if_neg hv]
    rw [List.reverse_append]
    rw [List.dropWhile_append]
    have hwrev : (w.reverse.dropWhile pyIsSpaceB) = [] := by
      rw [List.dropWhile_eq_nil_iff]
      intro x hx
      exact hw x (List.mem_reverse.mp hx)
    rw [hwrev]
    simp

/-- The header text whose presence marks a multipart segment as a form
field (the substring test at the top of the manual parse loop). -/
def cdMarker : List Char := "Content-Disposition: form-data".data

/-- Lines collected by the backup value extraction until one starts with
two dashes (the loop of the manual parse's no-blank-line branch). -/
def collectLines : List (List Char) → List (List Char)
  | [] => []
  | l :: rest => if prefB twoDash l then [] else l :: collectLines rest

/-- Backup extraction of a field value when the part holds no blank-line
separator: the lines after the first empty line, joined again, up to a
line starting with two dashes. -/
def linesValue (part : List Char) : List Char :=
  match (pySplitCore crlf part).dropWhile (fun l => !(l.isEmpty)) with
  | [] => []
  | _ :: rest => List.intercalate crlf (collectLines rest)

/-- A field's text value as the manual parse takes it from one segment:
everything after the first blank-line separator, cut at the next
boundary delimiter start, stripped of surrounding whitespace. -/
def extractValue (part : List Char) : List Char :=
  match pySplit1 crlf2 part with
  | some pr => pyStrip ((pySplitCore crlfDashDash pr.2).headD [])
  | none => pyStrip (linesValue part)

/-- The manual parse's field map: for each boundary-delimited segment
holding a form-data header and a name attribute, record name and value
in order (a later duplicate overwrites at lookup, as Python dict
assignment does). -/
def parseFields (parts : List (List Char)) : List (List Char × List Char) :=
  parts.foldl (fun fields part =>
    if isInfixB cdMarker part then
      match reSearchName part with
      | some nm => fields ++ [(nm, extractValue part)]
      | none => fields
    else fields) []

/-- Python dict lookup over the recorded pairs: the value of the last
binding of the key, or none. -/
def dictGet (d : List (List Char × List Char)) (k : List Char) :
    Option (List Char) :=
  match d.reverse.find? (fun p => p.1 == k) with
  | some p => some p.2
  | none => none

/-- The whole manual multipart recovery parse of the /generate fallback:
take the first line of the body, read the boundary token after the two
leading dashes, split the body on the boundary delimiter and collect the
field map. -/
def fallbackFields (body : List Char) : List (List Char × List Char) :=
  let firstLine := (pySplitCore crlf body).headD []
  let boundary := firstLine.drop 2
  parseFields (pySplitCore (twoDash ++ boundary) body)

/-- Model of os.path.splitext restricted to plain file names: the
extension starts at the last dot, except when every character before
that dot is itself a dot (a dotfile-style name has no extension). -/
def pyExt (s : List Char) : List Char :=
  let revAfter := s.reverse.takeWhile (fun c => c != '.')
  if revAfter.length = s.length then []
  else
    let i := s.length - revAfter.length - 1
    if (s.take i).all (fun c => c == '.') then [] else s.drop i

/-- Model of Python str.lower restricted to ASCII letters, the only
characters appearing in the decoder's format names: an uppercase letter
moves down by thirty-two code points, everything else stays. -/
def pyLowerChar (c : Char) : Char :=
  if hc : 65 ≤ c.toNat ∧ c.toNat ≤ 90 then
    Char.ofNatAux (c.toNat + 32) (Or.inl (by omega))
  else c

/-- Lowercasing a whole string. -/
def pyLowerStr (s : String) : String := ⟨s.data.map pyLowerChar⟩

/-- The sixteen lowercase hexadecimal digit characters. -/
def hexTable : List Char := "0123456789abcdef".data

/-- The hexadecimal digit character of a value below sixteen. -/
def hexDigitChar (n : Nat) : Char := hexTable.getD n '0'

/-- The base-sixteen digits of a token, least significant first, padded
to the thirty-two digits of a 128-bit value. -/
def hexDigits32 (t : Nat) : List Nat :=
  (List.range 32).map (fun i => t / 16 ^ i % 16)

/-- Model of the hex form of a version-4 UUID: thirty-two lowercase
hexadecimal characters of the 128-bit token, most significant first. -/
def hex32 (t : Nat) : List Char :=
  ((hexDigits32 t).map hexDigitChar).reverse

/-- The default model name (MODEL_NAME in src/main.py). -/
def MODEL_NAME : String := "gemini-2.5-flash-image-preview"

/-- The upload size limit in bytes (MAX_FILE_SIZE in src/main.py). -/
def MAX_FILE_SIZE : Nat := 10 * 1024 * 1024

/-- The accepted upload content types (ALLOWED_IMAGE_TYPES in src/main.py). -/
def ALLOWED_IMAGE_TYPES : List String :=
  ["image/jpeg", "image/png", "image/webp", "image/gif"]

/-- The too-large rejection detail text. -/
def tooLargeMsg : String := "File too large. Maximum size is 10MB"

/-- A file part as the form parser hands it to the endpoint: the declared
file name (absent or empty for the empty-selection widgets), the raw
bytes, the declared content type and the declared size. -/
structure UploadFileModel where
  filename : Option String
  content : List Nat
  contentType : Option String
  declaredSize : Option Nat
deriving DecidableEq

/-- A parsed form value: a plain text field or a file part. -/
inductive FormValue where
  | text (s : String)
  | file (f : UploadFileModel)
deriving DecidableEq

/-- A decoded image: its pixel mode and the format the decoder reports. -/
structure PilImage where
  mode : String
  format : Option String
deriving DecidableEq

/-- What the generation backend returns: a part list, a raised error, or
a response whose shape breaks the result parsing. -/
inductive GenPart where
  | text (s : String)
  | inline (data : List Nat)
  | other
deriving DecidableEq

inductive BackendCall where
  | ok (parts : List GenPart)
  | error (msg : String)
  | malformed (msg : String)
deriving DecidableEq

/-- The storage directory and the stream of random 128-bit tokens the
name generator draws from: each persisted file records its name and the
pixel mode it was saved in. -/
structure Store where
  files : List (String × String)
  tokens : List Nat
deriving DecidableEq

/-- The process environment: the configured API key, the image decoder
and the generation backend. -/
structure Env where
  apiKey : Option String
  decode : List Nat → Option PilImage
  backend : String → String → Option PilImage → BackendCall

/-- Whether an optional file name is truthy and non-blank after
stripping (the repeated filename probe of src/main.py). -/
def filenameTruthy : Option String → Bool
  | none => false
  | some s => !(s == "") && !((pyStrip s.data).isEmpty)

/-- is_valid_upload_file of src/main.py: a value counts as a real upload
only when it is a file part whose name is non-empty and not all
whitespace; an absent value or a plain string never does. -/
def is_valid_upload_file : Option FormValue → Bool
  | some (FormValue.file f) => filenameTruthy f.filename
  | _ => false

/-- The attachment states the spec's classifier distinguishes. -/
inductive AttachmentState where
  | Absent
  | Present (f : UploadFileModel)
deriving DecidableEq

/-- The attachment classifier as the code realizes it: a field is
Present exactly when is_valid_upload_file accepts it. -/
def classifyAttachment (v : Option FormValue) : AttachmentState :=
  match v with
  | some (FormValue.file f) =>
    if filenameTruthy f.filename then AttachmentState.Present f
    else AttachmentState.Absent
  | _ => AttachmentState.Absent

/-- The ingestion mode the response derives. -/
inductive IngestMode where
  | TextOnly
  | Multimodal
deriving DecidableEq

/-- An HTTP-level error carried by an exception: status code and detail. -/
def HErr : Type := Nat × String

/-- validate_image_file of src/main.py: skip everything when the file
name is blank; reject a declared size over the limit with status 413;
reject a declared content type outside the allowed set with status 400. -/
def validate_image_file (u : UploadFileModel) : Except HErr Unit :=
  if !(filenameTruthy u.filename) then Except.ok ()
  else if (match u.declaredSize with
           | some n => decide (MAX_FILE_SIZE < n)
           | none => false) then Except.error (413, tooLargeMsg)
  else if (match u.contentType with
           | some ct => !(ct == "") && !(ALLOWED_IMAGE_TYPES.contains ct)
           | none => false) then Except.error (400, "Invalid file type")
  else Except.ok ()

/-- pil_from_upload of src/main.py: reject a blank file name, validate,
reject an empty or over-limit byte sequence, then decode. -/
def pil_from_upload (env : Env) (u : UploadFileModel) : Except HErr PilImage :=
  if !(filenameTruthy u.filename) then
    Except.error (400, "No valid image file provided")
  else
    match validate_image_file u with
    | Except.error e => Except.error e
    | Except.ok _ =>
      if u.content.isEmpty then Except.error (400, "Empty file provided")
      else if MAX_FILE_SIZE < u.content.length then
        Except.error (413, tooLargeMsg)
      else
        match env.decode u.content with
        | some img => Except.ok img
        | none => Except.error (400, "Invalid image file")

/-- The pixel mode a saved image ends up with (the conversion in
save_pil of src/main.py): an image already in RGB or RGBA keeps its
mode, every other mode is converted to RGB. -/
def savedPilMode (m : String) : String :=
  if m = "RGB" ∨ m = "RGBA" then m else "RGB"

/-- The stored base name: the hex form of the random token, then the
canonical extension. -/
def storedName (t : Nat) (suffix : String) : String :=
  (⟨hex32 t⟩ : String) ++ suffix

/-- save_pil of src/main.py: draw the next random token, form the file
name from its hex form and the suffix, normalize the pixel mode and
append the file to the storage directory. -/
def save_pil (st : Store) (img : PilImage) (suffix : String) : String × Store :=
  let t := st.tokens.headD 0
  let fn := storedName t suffix
  (fn, ⟨st.files ++ [(fn, savedPilMode img.mode)], st.tokens.drop 1⟩)

/-- The name the extension is derived from: the upload's file name, or
the word image when that is absent or empty (upload.filename or a
default, as the code spells it). -/
def uploadOriginalName (filename : Option String) : String :=
  match filename with
  | some s => if s = "" then "image" else s
  | none => "image"

/-- The canonical extension save_uploaded_image derives: the original
file name's splitext extension whenever that is non-empty, else .png. -/
def chooseUploadExt (filename : Option String) : String :=
  let e := pyExt (uploadOriginalName filename).data
  if e.isEmpty then ".png" else (⟨e⟩ : String)

/-- save_uploaded_image of src/main.py: derive the extension, decode and
validate the upload, then persist it. -/
def save_uploaded_image (env : Env) (st : Store) (u : UploadFileModel) :
    Except HErr (String × String × Store) :=
  let ext := chooseUploadExt u.filename
  match pil_from_upload env u with
  | Except.error er => Except.error er
  | Except.ok img =>
    let pr := save_pil st img ext
    Except.ok (pr.1, "/static/" ++ pr.1, pr.2)

/-- The /upload response record: transport status, body flag and text,
the stored file name on success, and the storage state afterwards. -/
structure UploadResult where
  status : Nat
  success : Bool
  message : String
  filename : Option String
  store : Store
deriving DecidableEq

/-- The /upload endpoint: a request the framework cannot validate (no
usable file part at all) surfaces as a 422 validation error before the
handler runs; every handler outcome is a 200 body whose success flag and
message carry the result, the storage state unchanged on failure. -/
def uploadEndpoint (env : Env) (st : Store) :
    Option UploadFileModel → UploadResult
  | none => ⟨422, false, "Request validation failed", none, st⟩
  | some u =>
    match save_uploaded_image env st u with
    | Except.ok r => ⟨200, true, "图片上传成功", some r.1, r.2.2⟩
    | Except.error e => ⟨200, false, e.2, none, st⟩

/-- The suffix chosen for an inline image returned by the backend
(_process_generate_request of src/main.py): lowercase the reported
format name, keep it only when it equals one of four dot-prefixed
strings, else fall back to .png; prepend a dot when missing. -/
def selectGenSuffix (format : Option String) : String :=
  let fmt : String := pyLowerStr (format.getD "PNG")
  let s1 : String :=
    if fmt = ".jpg" ∨ fmt = ".jpeg" ∨ fmt = ".png" ∨ fmt = ".webp" then fmt
    else ".png"
  if prefB ['.'] s1.data then s1 else "." ++ s1

/-- Walking the backend's parts: collect texts, persist each inline
image under its chosen suffix, and stop with the failure flag when an
inline payload does not decode (files persisted before the failure
remain). -/
def renderParts (env : Env) : List GenPart → Store →
    List String × List String × Store × Bool
  | [], st => ([], [], st, false)
  | p :: rest, st =>
    match p with
    | GenPart.text s =>
      let r := renderParts env rest st
      (s :: r.1, r.2.1, r.2.2.1, r.2.2.2)
    | GenPart.other => renderParts env rest st
    | GenPart.inline data =>
      match env.decode data with
      | none => ([], [], st, true)
      | some g =>
        let pr := save_pil st g (selectGenSuffix g.format)
        let r := renderParts env rest pr.2
        (r.1, ("/static/" ++ pr.1) :: r.2.1, r.2.2.1, r.2.2.2)

/-- The outcome of the generation stage. -/
structure PResult where
  success : Bool
  message : String
  texts : List String
  imageUrls : List String
  backendCalled : Bool
  store : Store
deriving DecidableEq

/-- The backend call and result parsing of _process_generate_request:
a raised backend error, a malformed response and a failed inline decode
each produce a success-false body; otherwise the mode text names
text-only or multimodal generation by whether an image was attached. -/
def processBackend (env : Env) (st : Store) (modelName prompt : String)
    (img : Option PilImage) : PResult :=
  match env.backend modelName prompt img with
  | BackendCall.error m => ⟨false, "AI生成失败: " ++ m, [], [], true, st⟩
  | BackendCall.malformed m => ⟨false, "解析AI输出失败: " ++ m, [], [], true, st⟩
  | BackendCall.ok parts =>
    let r := renderParts env parts st
    if r.2.2.2 then ⟨false, "解析AI输出失败", [], [], true, r.2.2.1⟩
    else
      let mode := if img.isSome then "图文混合生成" else "纯文本生成"
      ⟨true, mode ++ "成功", r.1, r.2.1, true, r.2.2.1⟩

/-- _process_generate_request of src/main.py: fail without a backend
call when the API key is unset or the attached image does not decode;
otherwise call the backend with the prompt and the optional image. -/
def processGenerate (env : Env) (st : Store) (prompt modelName : String)
    (imageFile : Option UploadFileModel) : PResult :=
  match env.apiKey with
  | none =>
    ⟨false, "请求处理失败: GOOGLE_API_KEY not set in environment.", [], [],
      false, st⟩
  | some _ =>
    match imageFile with
    | some f =>
      if filenameTruthy f.filename then
        match pil_from_upload env f with
        | Except.error e => ⟨false, "图片处理失败: " ++ e.2, [], [], false, st⟩
        | Except.ok img => processBackend env st modelName prompt (some img)
      else processBackend env st modelName prompt none
    | none => processBackend env st modelName prompt none

/-- safe_generate_handler of src/main.py: keep the upload only when
is_valid_upload_file accepts it, then run the generation; the second
component is the attachment actually handed to processing. -/
def safe_generate_handler (env : Env) (st : Store) (prompt modelName : String)
    (image : Option UploadFileModel) : PResult × Option UploadFileModel :=
  let imageFile :=
    if is_valid_upload_file (image.map FormValue.file) then image else none
  (processGenerate env st prompt modelName imageFile, imageFile)

/-- A /generate request at the boundary the endpoint sees: the declared
content type, the raw body decoded as text, and what the framework's
strict form parse would yield (a field list, or the parse error it
would raise). -/
structure GenRequest where
  contentType : String
  body : List Char
  form : Except String (List (String × FormValue))

/-- The /generate response record, instrumented with the control-flow
facts the claims speak about: whether the manual fallback parse ran,
whether the backend was invoked, and the attachment handed to
processing. -/
structure GenResult where
  status : Nat
  success : Bool
  message : String
  promptOut : String
  usedFallback : Bool
  backendCalled : Bool
  attachmentPassed : Option UploadFileModel
  store : Store
deriving DecidableEq

/-- The missing-prompt response of /generate. -/
def missingPromptResult (fb : Bool) (st : Store) : GenResult :=
  ⟨200, false, "缺少必填参数: prompt", "", fb, false, none, st⟩

/-- Form lookup as Starlette's FormData.get does it: the value of the
last binding of the key. -/
def formGet (form : List (String × FormValue)) (k : String) : Option FormValue :=
  match form.reverse.find? (fun p => p.1 == k) with
  | some p => some p.2
  | none => none

/-- Whether the prompt field read from a form fails the truthiness test
(absent, or present as the empty string). -/
def pyFalsyFV : Option FormValue → Bool
  | none => true
  | some (FormValue.text s) => s == ""
  | some (FormValue.file _) => false

/-- The string a form value contributes when used as text. -/
def fvToStr : FormValue → String
  | FormValue.text s => s
  | FormValue.file _ => "UploadFile"

/-- The model-name fallback (model or MODEL_NAME): an absent or empty
model field yields the default. -/
def pyOrModel : Option FormValue → String
  | some (FormValue.text s) => if s = "" then MODEL_NAME else s
  | some (FormValue.file _) => "UploadFile"
  | none => MODEL_NAME

/-- The primary /generate path over a successfully parsed form: check
the prompt, classify the image field through is_valid_upload_file and
run the safe handler; every outcome is a 200 body. -/
def primaryBranch (env : Env) (st : Store)
    (form : List (String × FormValue)) : GenResult :=
  if pyFalsyFV (formGet form "prompt") then missingPromptResult false st
  else
    let prompt := fvToStr ((formGet form "prompt").getD (FormValue.text ""))
    let modelName := pyOrModel (formGet form "model")
    let imageFile : Option UploadFileModel :=
      match formGet form "image" with
      | some (FormValue.file f) =>
        if is_valid_upload_file (some (FormValue.file f)) then some f else none
      | _ => none
    let pr := safe_generate_handler env st prompt modelName imageFile
    ⟨200, pr.1.success, pr.1.message, prompt, false, pr.1.backendCalled, pr.2,
      pr.1.store⟩

/-- The keys the fallback path looks up. -/
def promptKey : List Char := ['p', 'r', 'o', 'm', 'p', 't']

def modelKey : List Char := ['m', 'o', 'd', 'e', 'l']

/-- The fallback /generate path over the raw body: when the body starts
with two dashes, recover the fields manually and proceed with no
attachment at all; otherwise report the malformed body — still as a 200
body with a success flag. -/
def fallbackBranch (env : Env) (st : Store) (body : List Char) : GenResult :=
  if prefB twoDash body then
    let fields := fallbackFields body
    match dictGet fields promptKey with
    | none => missingPromptResult true st
    | some p =>
      if p.isEmpty then missingPromptResult true st
      else
        let prompt : String := ⟨p⟩
        let modelName : String :=
          match dictGet fields modelKey with
          | some m => if m.isEmpty then MODEL_NAME else (⟨m⟩ : String)
          | none => MODEL_NAME
        let pr := safe_generate_handler env st prompt modelName none
        ⟨200, pr.1.success, pr.1.message, prompt, true, pr.1.backendCalled,
          none, pr.1.store⟩
  else
    ⟨200, false, "无法解析请求：multipart/form-data 格式错误", "", true, false,
      none, st⟩

/-- The condition that routes a request into the manual fallback parse:
the content type declares multipart form data and carries no boundary
parameter. -/
def fbCond (ct : String) : Bool :=
  prefB "multipart/form-data".data ct.data
    && !(isInfixB "boundary=".data ct.data)

/-- The /generate endpoint of src/main.py: route by the fallback
condition; a strict-parse failure on the primary path is caught and
reported as a 200 body. -/
def generateEndpoint (env : Env) (st : Store) (req : GenRequest) : GenResult :=
  if fbCond req.contentType then fallbackBranch env st req.body
  else
    match req.form with
    | Except.ok form => primaryBranch env st form
    | Except.error e =>
      ⟨200, false, "请求处理失败: " ++ e, "", false, false, none, st⟩

/-- The mode the response assembler derives, a property of the request
alone: text-only exactly when no attachment was handed to processing. -/
def ingestMode (r : GenResult) : IngestMode :=
  match r.attachmentPassed with
  | none => IngestMode.TextOnly
  | some _ => IngestMode.Multimodal

/-- The value a hexadecimal digit character denotes. -/
def hexVal (c : Char) : Nat := hexTable.indexOf c

theorem hexVal_hexDigitChar (n : Nat) (h : n < 16) :
    hexVal (hexDigitChar n) = n := by
  interval_cases n <;> rfl

theorem hexDigits32_lt (t : Nat) : ∀ d ∈ hexDigits32 t, d < 16 := by
  intro d hd
  simp only [hexDigits32, List.mem_map] at hd
  obtain ⟨i, _, hi⟩ := hd
  rw [← hi]
  exact Nat.mod_lt _ (by norm_num)

theorem map_hexVal_digits (t : Nat) :
    (hexDigits32 t).map (hexVal ∘ hexDigitChar) = hexDigits32 t := by
  have h : ∀ d ∈ hexDigits32 t, (hexVal ∘ hexDigitChar) d = id d := by
    intro d hd
    exact hexVal_hexDigitChar d (hexDigits32_lt t d hd)
  rw [List.map_congr_left h, List.map_id]

theorem ofDigits_range_map (b t : Nat) :
    ∀ k : Nat, Nat.ofDigits b ((List.range k).map fun i => t / b ^ i % b)
      = t % b ^ k := by
  intro k
  induction k with
  | zero => simp [Nat.ofDigits, Nat.mod_one]
  | succ k ih =>
    rw [List.range_succ, List.map_append, Nat.ofDigits_append, ih]
    simp only [List.map_cons, List.map_nil, List.length_map, List.length_range]
    have hsing : Nat.ofDigits b [t / b ^ k % b] = t / b ^ k % b := by
      simp [Nat.ofDigits]
    rw [hsing]
    exact (Nat.mod_pow_succ).symm

theorem ofDigits_hexDigits32 (t : Nat) :
    Nat.ofDigits 16 (hexDigits32 t) = t % 16 ^ 32 :=
  ofDigits_range_map 16 t 32

theorem hex32_injOn (t1 t2 : Nat) (h1 : t1 < 2 ^ 128) (h2 : t2 < 2 ^ 128)
    (he : hex32 t1 = hex32 t2) : t1 = t2 := by
  have hm : (hexDigits32 t1).map hexDigitChar = (hexDigits32 t2).map hexDigitChar := by
    have := congrArg List.reverse he
    simpa only [hex32, List.reverse_reverse] using this
  have hd : hexDigits32 t1 = hexDigits32 t2 := by
    have := congrArg (List.map hexVal) hm
    rw [List.map_map, List.map_map, map_hexVal_digits, map_hexVal_digits] at this
    exact this
  have hofs := congrArg (Nat.ofDigits 16) hd
  rw [ofDigits_hexDigits32, ofDigits_hexDigits32] at hofs
  have hpow : (16 : Nat) ^ 32 = 2 ^ 128 := by norm_num
  rw [hpow, Nat.mod_eq_of_lt h1, Nat.mod_eq_of_lt h2] at hofs
  exact hofs

theorem hex32_length (t : Nat) : (hex32 t).length = 32 := by
  simp [hex32, hexDigits32]

theorem data_append (s t : String) : (s ++ t).data = s.data ++ t.data := rfl

theorem toNat_ofNatAux (n : Nat) (h : n.isValidChar) :
    (Char.ofNatAux n h).toNat = n := by
  have hlt : n < 2 ^ 32 := by
    rcases h with h1 | h2
    · omega
    · omega
  simp [Char.ofNatAux, Char.toNat, UInt32.toNat, UInt32.ofNatCore,
    BitVec.toNat_ofNat, Nat.mod_eq_of_lt hlt]

theorem pyLowerChar_dot (c : Char) (h : pyLowerChar c = '.') : c = '.' := by
  unfold pyLowerChar at h
  split at h
  case isTrue hc =>
    have := congrArg Char.toNat h
    rw [toNat_ofNatAux] at this
    have hdot : ('.').toNat = 46 := rfl
    rw [hdot] at this
    omega
  case isFalse => exact h

/-- A concrete environment whose decoder yields a palette-mode image. -/
def cEnvP : Env :=
  ⟨some "key", fun _ => some ⟨"P", some "PNG"⟩, fun _ _ _ => BackendCall.ok []⟩

/-- A concrete storage state with one pending token. -/
def cStoreU : Store := ⟨[], [0]⟩

/-- A concrete upload whose original name carries a non-image extension. -/
def cTxtUpload : UploadFileModel := ⟨some "a.txt", [1, 2], some "image/png", some 2⟩

/-- The persisted triple the concrete upload produces. -/
def cUploadRes : String × String × Store :=
  ("00000000000000000000000000000000.txt",
   "/static/00000000000000000000000000000000.txt",
   ⟨[("00000000000000000000000000000000.txt", "RGB")], []⟩)

/-- C5 counterexample: an accepted upload named a.txt is persisted with
extension .txt, although .txt is not one of the supported image
extensions — the claim's recognized-extension fallback to .png does not
happen. -/
theorem c5_counterexample :
    (uploadEndpoint cEnvP cStoreU (some cTxtUpload)).success = true ∧
    (uploadEndpoint cEnvP cStoreU (some cTxtUpload)).filename
      = some "00000000000000000000000000000000.txt" ∧
    chooseUploadExt (some "a.txt") = ".txt" ∧
    ¬ (".txt" ∈ ([".png", ".jpg", ".jpeg", ".webp", ".gif"] : List String)) ∧
    (".txt" : String) ≠ ".png" := by
  decide

/-- C5 amended: the persisted name of every accepted upload is the drawn
token's hex form followed by the canonical extension; that extension is
the original file name's splitext extension whenever splitext yields one
(recognized or not), and .png only when it yields none. -/
theorem c5_extension_amended (env : Env) (st : Store) (u : UploadFileModel)
    (r : String × String × Store)
    (hok : save_uploaded_image env st u = Except.ok r) :
    r.1 = storedName (st.tokens.headD 0) (chooseUploadExt u.filename) ∧
    (pyExt (uploadOriginalName u.filename).data = [] →
      chooseUploadExt u.filename = ".png") ∧
    (pyExt (uploadOriginalName u.filename).data ≠ [] →
      chooseUploadExt u.filename
        = (⟨pyExt (uploadOriginalName u.filename).data⟩ : String)) := by
  refine ⟨?_, ?_, ?_⟩
  · unfold save_uploaded_image at hok
    cases hp : pil_from_upload env u with
    | error e => rw [hp] at hok; exact absurd hok (by simp)
    | ok img =>
      rw [hp] at hok
      simp only [Except.ok.injEq] at hok
      rw [← hok]
      rfl
  · intro h
    unfold chooseUploadExt
    rw [if_pos (by rw [List.isEmpty_iff]; exact h)]
  · intro h
    unfold chooseUploadExt
    rw [if_neg (by rw [List.isEmpty_iff]; exact h)]

/-- C5 witness: the amended statement evaluated at the concrete upload. -/
theorem c5_extension_amended_witness :
    cUploadRes.1 = storedName (cStoreU.tokens.headD 0)
      (chooseUploadExt cTxtUpload.filename) ∧
    (pyExt (uploadOriginalName cTxtUpload.filename).data = [] →
      chooseUploadExt cTxtUpload.filename = ".png") ∧
    (pyExt (uploadOriginalName cTxtUpload.filename).data ≠ [] →
      chooseUploadExt cTxtUpload.filename
        = (⟨pyExt (uploadOriginalName cTxtUpload.filename).data⟩ : String)) :=
  c5_extension_amended cEnvP cStoreU cTxtUpload cUploadRes (by rfl)

/-- C6 counterexample: a palette-mode image (mode P) is converted to RGB
by the store, not preserved as RGBA; a gray-with-alpha image (mode LA)
is likewise converted to RGB. -/
theorem c6_counterexample :
    savedPilMode "P" = "RGB" ∧ savedPilMode "P" ≠ "RGBA" ∧
    savedPilMode "LA" = "RGB" ∧ savedPilMode "LA" ≠ "RGBA" := by
  decide

/-- C6 amended: an image already in RGB or RGBA keeps its pixel mode at
save time; an image in any other mode — palette and non-RGBA alpha
modes included — is converted to RGB before being written, and the
store records exactly that saved mode. -/
theorem c6_mode_amended : ∀ m : String,
    ((m = "RGB" ∨ m = "RGBA") → savedPilMode m = m) ∧
    (¬ (m = "RGB" ∨ m = "RGBA") → savedPilMode m = "RGB") ∧
    (∀ (st : Store) (img : PilImage) (suffix : String),
      (save_pil st img suffix).2.files
        = st.files ++ [((save_pil st img suffix).1, savedPilMode img.mode)]) := by
  intro m
  refine ⟨?_, ?_, ?_⟩
  · intro h
    unfold savedPilMode
    rw [if_pos h]
  · intro h
    unfold savedPilMode
    rw [if_neg h]
  · intro st img suffix
    rfl

/-- A file part with a usable name whose declared size or actual byte
length exceeds the limit is rejected by pil_from_upload with the 413
too-large detail before anything reaches the store. -/
theorem c7_pil_too_large (env : Env) (u : UploadFileModel)
    (hname : filenameTruthy u.filename = true)
    (hsize : (∃ n, u.declaredSize = some n ∧ MAX_FILE_SIZE < n)
      ∨ MAX_FILE_SIZE < u.content.length)
    (htype : ∀ ct, u.contentType = some ct →
      ct = "" ∨ ALLOWED_IMAGE_TYPES.contains ct = true) :
    pil_from_upload env u = Except.error (413, tooLargeMsg) := by
  rcases hsize with ⟨n, hn, hlt⟩ | hlen
  · have hval : validate_image_file u = Except.error (413, tooLargeMsg) := by
      unfold validate_image_file
      simp [hname, hn, hlt]
    unfold pil_from_upload
    simp [hname, hval]
  · cases hb1 : (match u.declaredSize with
        | some n => decide (MAX_FILE_SIZE < n)
        | none => false) with
    | true =>
      have hval : validate_image_file u = Except.error (413, tooLargeMsg) := by
        unfold validate_image_file
        simp only [hname, Bool.not_true, Bool.false_eq_true, if_false, hb1,
          if_true]
      unfold pil_from_upload
      simp [hname, hval]
    | false =>
      have hb2 : (match u.contentType with
          | some ct => !(ct == "") && !(ALLOWED_IMAGE_TYPES.contains ct)
          | none => false) = false := by
        cases hct : u.contentType with
        | none => rfl
        | some ct =>
          show (!(ct == "") && !(ALLOWED_IMAGE_TYPES.contains ct)) = false
          rcases htype ct hct with h | h
          · subst h
            decide
          · rw [h]
            simp
      have hval : validate_image_file u = Except.ok () := by
        unfold validate_image_file
        simp only [hname, Bool.not_true, Bool.false_eq_true, if_false, hb1,
          hb2, if_true]
      have hne : u.content.isEmpty = false := by
        rw [List.isEmpty_eq_false]
        intro hnil
        rw [hnil] at hlen
        simp [MAX_FILE_SIZE] at hlen
      unfold pil_from_upload
      simp [hname, hval, hne, hlen]

/-- C7: every over-limit upload is answered with a 200 body whose
success flag is false and the too-large detail, and the storage
directory is left exactly as it was — no asset, not even a partial one,
is persisted on this path. -/
theorem c7_too_large_rejected (env : Env) (st : Store) (u : UploadFileModel)
    (hname : filenameTruthy u.filename = true)
    (hsize : (∃ n, u.declaredSize = some n ∧ MAX_FILE_SIZE < n)
      ∨ MAX_FILE_SIZE < u.content.length)
    (htype : ∀ ct, u.contentType = some ct →
      ct = "" ∨ ALLOWED_IMAGE_TYPES.contains ct = true) :
    (uploadEndpoint env st (some u)).status = 200 ∧
    (uploadEndpoint env st (some u)).success = false ∧
    (uploadEndpoint env st (some u)).message = tooLargeMsg ∧
    (uploadEndpoint env st (some u)).store = st := by
  have hpil := c7_pil_too_large env u hname hsize htype
  have hsave : save_uploaded_image env st u = Except.error (413, tooLargeMsg) := by
    unfold save_uploaded_image
    rw [hpil]
  simp [uploadEndpoint, hsave]

/-- C7 witness: a part declaring one byte over the limit, evaluated. -/
theorem c7_too_large_rejected_witness :
    (uploadEndpoint cEnvP cStoreU
      (some ⟨some "big.png", [0], some "image/png", some 10485761⟩)).status = 200 ∧
    (uploadEndpoint cEnvP cStoreU
      (some ⟨some "big.png", [0], some "image/png", some 10485761⟩)).success = false ∧
    (uploadEndpoint cEnvP cStoreU
      (some ⟨some "big.png", [0], some "image/png", some 10485761⟩)).message
        = tooLargeMsg ∧
    (uploadEndpoint cEnvP cStoreU
      (some ⟨some "big.png", [0], some "image/png", some 10485761⟩)).store = cStoreU :=
  c7_too_large_rejected cEnvP cStoreU _
    (by decide)
    (Or.inl ⟨10485761, rfl, by decide⟩)
    (by intro ct hct; cases hct; right; decide)

theorem hexDigitChar_mem (d : Nat) : hexDigitChar d ∈ hexTable := by
  unfold hexDigitChar
  by_cases h : d < 16
  · interval_cases d <;> decide
  · rw [List.getD_eq_default]
    · decide
    · simp only [hexTable, List.length_cons, List.length_nil]
      omega

/-- C8: each persisted base name is the 32-character lowercase hex form
of the drawn 128-bit token followed by the suffix, and distinct tokens
always yield distinct stored names, whatever the two suffixes are; the
name save_pil uses is exactly this form applied to the next token of
the random stream. -/
theorem c8_unique_random_names (t1 t2 : Nat) (s1 s2 : String)
    (h1 : t1 < 2 ^ 128) (h2 : t2 < 2 ^ 128) (hne : t1 ≠ t2) :
    storedName t1 s1 ≠ storedName t2 s2 ∧
    (hex32 t1).length = 32 ∧
    (∀ c ∈ hex32 t1, c ∈ hexTable) ∧
    (∀ (st : Store) (img : PilImage) (suffix : String),
      (save_pil st img suffix).1 = storedName (st.tokens.headD 0) suffix) := by
  refine ⟨?_, hex32_length t1, ?_, ?_⟩
  · intro heq
    have hdata := congrArg String.data heq
    have e1 : (storedName t1 s1).data = hex32 t1 ++ s1.data := rfl
    have e2 : (storedName t2 s2).data = hex32 t2 ++ s2.data := rfl
    rw [e1, e2] at hdata
    have hlen : (hex32 t1).length = (hex32 t2).length := by
      rw [hex32_length, hex32_length]
    have := (List.append_inj hdata hlen).1
    exact hne (hex32_injOn t1 t2 h1 h2 this)
  · intro c hc
    simp only [hex32, List.mem_reverse, List.mem_map] at hc
    obtain ⟨d, _, hd⟩ := hc
    rw [← hd]
    exact hexDigitChar_mem d
  · intro st img suffix
    rfl

/-- C8 witness: two concrete distinct tokens, same suffix. -/
theorem c8_unique_random_names_witness :
    storedName 0 ".png" ≠ storedName 1 ".png" ∧
    (hex32 0).length = 32 ∧
    (∀ c ∈ hex32 0, c ∈ hexTable) ∧
    (∀ (st : Store) (img : PilImage) (suffix : String),
      (save_pil st img suffix).1 = storedName (st.tokens.headD 0) suffix) :=
  c8_unique_random_names 0 1 ".png" ".png" (by positivity) (by norm_num)
    (by norm_num)

/-- C10: the suffix chosen for a backend inline image is always .png —
the lowercased undotted format name is compared against dot-prefixed
strings and can never match, so every persisted generated image gets
the .png default, whatever the decoder reports. -/
theorem c10_gen_suffix_always_png :
    selectGenSuffix none = ".png" ∧
    (∀ s : String, s.data.head? ≠ some '.' → selectGenSuffix (some s) = ".png") ∧
    (∀ (st : Store) (g : PilImage),
      (∀ s, g.format = some s → s.data.head? ≠ some '.') →
      (save_pil st g (selectGenSuffix g.format)).1
        = storedName (st.tokens.headD 0) ".png") := by
  have key : ∀ s : String, s.data.head? ≠ some '.' →
      selectGenSuffix (some s) = ".png" := by
    intro s hs
    have hhead : (pyLowerStr s).data.head? ≠ some '.' := by
      simp only [pyLowerStr]
      intro hcon
      rw [List.head?_map] at hcon
      cases hh : s.data.head? with
      | none => rw [hh] at hcon; simp at hcon
      | some c =>
        rw [hh] at hcon
        simp only [Option.map_some'] at hcon
        have hc := pyLowerChar_dot c (Option.some.inj hcon)
        rw [hc] at hh
        exact hs hh
    have h4 : ¬ (pyLowerStr s = ".jpg" ∨ pyLowerStr s = ".jpeg" ∨
        pyLowerStr s = ".png" ∨ pyLowerStr s = ".webp") := by
      intro hdis
      apply hhead
      rcases hdis with h | h | h | h <;> rw [h] <;> rfl
    show (let fmt := pyLowerStr ((some s).getD "PNG")
          let s1 := if fmt = ".jpg" ∨ fmt = ".jpeg" ∨ fmt = ".png" ∨ fmt = ".webp"
            then fmt else ".png"
          if prefB ['.'] s1.data then s1 else "." ++ s1) = ".png"
    simp only [Option.getD]
    rw [if_neg h4]
    rfl
  refine ⟨by decide, key, ?_⟩
  intro st g hfmt
  cases hg : g.format with
  | none => rfl
  | some s =>
    rw [key s (hfmt s hg)]
    rfl

theorem fallbackBranch_status (env : Env) (st : Store) (body : List Char) :
    (fallbackBranch env st body).status = 200 := by
  unfold fallbackBranch
  split
  · dsimp only
    split
    · rfl
    · split <;> rfl
  · rfl

theorem fallbackBranch_usedFallback (env : Env) (st : Store) (body : List Char) :
    (fallbackBranch env st body).usedFallback = true := by
  unfold fallbackBranch
  split
  · dsimp only
    split
    · rfl
    · split <;> rfl
  · rfl

theorem primaryBranch_status (env : Env) (st : Store)
    (form : List (String × FormValue)) :
    (primaryBranch env st form).status = 200 := by
  unfold primaryBranch
  split <;> rfl

theorem primaryBranch_usedFallback (env : Env) (st : Store)
    (form : List (String × FormValue)) :
    (primaryBranch env st form).usedFallback = false := by
  unfold primaryBranch
  split <;> rfl

/-- C2 counterexample: a multipart request without a boundary parameter
whose body defeats even the fallback parser (it does not begin with two
dashes) is answered with status 200 and a success-false body — not with
the 4xx transport error the claim reserves for this case. -/
theorem c2_counterexample :
    (generateEndpoint cEnvP cStoreU
      ⟨"multipart/form-data", "hello".data, Except.ok []⟩).status = 200 ∧
    (generateEndpoint cEnvP cStoreU
      ⟨"multipart/form-data", "hello".data, Except.ok []⟩).success = false ∧
    (generateEndpoint cEnvP cStoreU
      ⟨"multipart/form-data", "hello".data, Except.ok []⟩).message
        = "无法解析请求：multipart/form-data 格式错误" ∧
    (generateEndpoint cEnvP cStoreU
      ⟨"multipart/form-data", "hello".data, Except.ok []⟩).usedFallback = true := by
  decide

/-- C2 amended: every /generate outcome — business-logic failures and
bodies that defeat even the fallback parser alike — is an HTTP 200
response whose body carries the success flag; on /upload every handler
outcome is likewise a 200 body, and only a request that fails the
framework's validation of the required image field (no usable file part
at all) surfaces as a 422 transport error. -/
theorem c2_status_amended :
    (∀ (env : Env) (st : Store) (req : GenRequest),
      (generateEndpoint env st req).status = 200) ∧
    (∀ (env : Env) (st : Store) (u : UploadFileModel),
      (uploadEndpoint env st (some u)).status = 200) ∧
    (∀ (env : Env) (st : Store),
      (uploadEndpoint env st none).status = 422) := by
  refine ⟨?_, ?_, ?_⟩
  · intro env st req
    unfold generateEndpoint
    split
    · exact fallbackBranch_status env st req.body
    · split
      · exact primaryBranch_status env st _
      · rfl
  · intro env st u
    cases hs : save_uploaded_image env st u with
    | ok r => simp [uploadEndpoint, hs]
    | error e => simp [uploadEndpoint, hs]
  · intro env st
    rfl

/-- C9: the manual fallback parse runs exactly when the content type
declares multipart form data without a boundary parameter; on every
other request — malformed or not — the endpoint answers from the
primary parse without any re-parse of the raw body. -/
theorem c9_fallback_iff (env : Env) (st : Store) (req : GenRequest) :
    (generateEndpoint env st req).usedFallback = true ↔
    (prefB "multipart/form-data".data req.contentType.data = true ∧
      isInfixB "boundary=".data req.contentType.data = false) := by
  unfold generateEndpoint
  cases hfb : fbCond req.contentType with
  | true =>
    rw [if_pos rfl]
    unfold fbCond at hfb
    simp only [Bool.and_eq_true, Bool.not_eq_true'] at hfb
    exact ⟨fun _ => hfb, fun _ => fallbackBranch_usedFallback env st req.body⟩
  | false =>
    rw [if_neg (by exact Bool.false_ne_true)]
    constructor
    · intro hcon
      exfalso
      cases hform : req.form with
      | ok form =>
        rw [hform] at hcon
        rw [primaryBranch_usedFallback] at hcon
        exact Bool.false_ne_true hcon
      | error e =>
        rw [hform] at hcon
        exact Bool.false_ne_true hcon
    · intro hc
      exfalso
      unfold fbCond at hfb
      rw [hc.1, hc.2] at hfb
      simp at hfb

/-- The recognized encodings of an absent attachment: image field
omitted entirely, image field sent as a plain text value (the empty
string included), or a file part whose declared name is missing, empty
or all whitespace. -/
def NoAttachmentEncoding (v : Option FormValue) : Prop :=
  v = none ∨ (∃ s, v = some (FormValue.text s)) ∨
  (∃ f, v = some (FormValue.file f) ∧
    (f.filename = none ∨ pyStrip ((f.filename.getD "").data) = []))

theorem noatt_not_valid (v : Option FormValue) (h : NoAttachmentEncoding v) :
    is_valid_upload_file v = false := by
  rcases h with h | ⟨s, h⟩ | ⟨f, h, hf⟩
  · rw [h]; rfl
  · rw [h]; rfl
  · rw [h]
    show filenameTruthy f.filename = false
    rcases hf with hn | hs
    · rw [hn]; rfl
    · cases hfn : f.filename with
      | none => rfl
      | some s =>
        rw [hfn] at hs
        simp only [Option.getD] at hs
        simp [filenameTruthy, hs]

/-- C1: whichever of the recognized no-attachment encodings a form uses,
the classifier yields Absent, is_valid_upload_file rejects the field,
no attachment is handed to downstream processing, and the derived mode
is text-only. -/
theorem c1_no_attachment_text_only (env : Env) (st : Store) (ct : String)
    (bd : List Char) (form : List (String × FormValue))
    (hct : fbCond ct = false)
    (hp : pyFalsyFV (formGet form "prompt") = false)
    (ha : NoAttachmentEncoding (formGet form "image")) :
    classifyAttachment (formGet form "image") = AttachmentState.Absent ∧
    is_valid_upload_file (formGet form "image") = false ∧
    (generateEndpoint env st ⟨ct, bd, Except.ok form⟩).attachmentPassed = none ∧
    ingestMode (generateEndpoint env st ⟨ct, bd, Except.ok form⟩)
      = IngestMode.TextOnly := by
  have hv := noatt_not_valid _ ha
  have hcls : classifyAttachment (formGet form "image") = AttachmentState.Absent := by
    cases hfg : formGet form "image" with
    | none => rfl
    | some v =>
      cases v with
      | text s => rfl
      | file f =>
        rw [hfg] at hv
        have hft : filenameTruthy f.filename = false := hv
        show (if filenameTruthy f.filename = true then AttachmentState.Present f
          else AttachmentState.Absent) = AttachmentState.Absent
        rw [if_neg (by rw [hft]; exact Bool.false_ne_true)]
  have himg : (match formGet form "image" with
      | some (FormValue.file f) =>
        if is_valid_upload_file (some (FormValue.file f)) then some f else none
      | _ => none) = (none : Option UploadFileModel) := by
    cases hfg : formGet form "image" with
    | none => rfl
    | some v =>
      cases v with
      | text s => rfl
      | file f =>
        rw [hfg] at hv
        simp [hv]
  have hend : (generateEndpoint env st ⟨ct, bd, Except.ok form⟩).attachmentPassed
      = none := by
    show (if fbCond ct = true then fallbackBranch env st bd
      else primaryBranch env st form).attachmentPassed = none
    rw [if_neg (by rw [hct]; exact Bool.false_ne_true)]
    unfold primaryBranch
    rw [if_neg (by rw [hp]; exact Bool.false_ne_true)]
    dsimp only
    rw [himg]
    rfl
  refine ⟨hcls, hv, hend, ?_⟩
  unfold ingestMode
  rw [hend]

/-- C1 witness: a form whose image field is the empty string, against a
content type carrying a boundary. -/
theorem c1_no_attachment_text_only_witness :
    classifyAttachment (formGet
      [("prompt", FormValue.text "hi"), ("image", FormValue.text "")] "image")
      = AttachmentState.Absent ∧
    is_valid_upload_file (formGet
      [("prompt", FormValue.text "hi"), ("image", FormValue.text "")] "image")
      = false ∧
    (generateEndpoint cEnvP cStoreU ⟨"application/json", [],
      Except.ok [("prompt", FormValue.text "hi"), ("image", FormValue.text "")]⟩).attachmentPassed
      = none ∧
    ingestMode (generateEndpoint cEnvP cStoreU ⟨"application/json", [],
      Except.ok [("prompt", FormValue.text "hi"), ("image", FormValue.text "")]⟩)
      = IngestMode.TextOnly :=
  c1_no_attachment_text_only cEnvP cStoreU "application/json" []
    [("prompt", FormValue.text "hi"), ("image", FormValue.text "")]
    (by decide) (by decide) (Or.inr (Or.inl ⟨"", by decide⟩))

/-- C4 counterexample: a prompt consisting of a single space is not
empty to the truthiness test, so the request proceeds: the backend is
invoked and the response is a success — not the missing-prompt failure
the claim requires for a prompt that is empty after trimming. -/
theorem c4_counterexample :
    (generateEndpoint cEnvP cStoreU ⟨"multipart/form-data; boundary=x", [],
      Except.ok [("prompt", FormValue.text " ")]⟩).backendCalled = true ∧
    (generateEndpoint cEnvP cStoreU ⟨"multipart/form-data; boundary=x", [],
      Except.ok [("prompt", FormValue.text " ")]⟩).success = true ∧
    (generateEndpoint cEnvP cStoreU ⟨"multipart/form-data; boundary=x", [],
      Except.ok [("prompt", FormValue.text " ")]⟩).message ≠ "缺少必填参数: prompt" := by
  decide

/-- C4 amended: a request whose prompt field is absent or is exactly the
empty string fails with the missing-prompt message, success false and no
backend call — on the primary path without trimming (a whitespace-only
prompt passes), and on the fallback path over the manually parsed
fields (whose values the fallback parser has already stripped). -/
theorem c4_missing_prompt_amended :
    (∀ (env : Env) (st : Store) (ct : String) (bd : List Char)
        (form : List (String × FormValue)),
      fbCond ct = false → pyFalsyFV (formGet form "prompt") = true →
      (generateEndpoint env st ⟨ct, bd, Except.ok form⟩).status = 200 ∧
      (generateEndpoint env st ⟨ct, bd, Except.ok form⟩).success = false ∧
      (generateEndpoint env st ⟨ct, bd, Except.ok form⟩).message
        = "缺少必填参数: prompt" ∧
      (generateEndpoint env st ⟨ct, bd, Except.ok form⟩).backendCalled = false) ∧
    (∀ (env : Env) (st : Store) (ct : String) (bd : List Char)
        (fm : Except String (List (String × FormValue))),
      fbCond ct = true → prefB twoDash bd = true →
      (dictGet (fallbackFields bd) promptKey = none ∨
        dictGet (fallbackFields bd) promptKey = some []) →
      (generateEndpoint env st ⟨ct, bd, fm⟩).status = 200 ∧
      (generateEndpoint env st ⟨ct, bd, fm⟩).success = false ∧
      (generateEndpoint env st ⟨ct, bd, fm⟩).message = "缺少必填参数: prompt" ∧
      (generateEndpoint env st ⟨ct, bd, fm⟩).backendCalled = false) := by
  constructor
  · intro env st ct bd form hct hp
    have hres : generateEndpoint env st ⟨ct, bd, Except.ok form⟩
        = missingPromptResult false st := by
      show (if fbCond ct = true then fallbackBranch env st bd
        else primaryBranch env st form) = missingPromptResult false st
      rw [if_neg (by rw [hct]; exact Bool.false_ne_true)]
      unfold primaryBranch
      rw [if_pos hp]
    rw [hres]
    exact ⟨rfl, rfl, rfl, rfl⟩
  · intro env st ct bd fm hct hbd hdg
    have hres : generateEndpoint env st ⟨ct, bd, fm⟩
        = missingPromptResult true st := by
      show (if fbCond ct = true then fallbackBranch env st bd
        else match fm with
          | Except.ok form => primaryBranch env st form
          | Except.error e =>
            ⟨200, false, "请求处理失败: " ++ e, "", false, false, none, st⟩)
        = missingPromptResult true st
      rw [if_pos hct]
      unfold fallbackBranch
      rw [if_pos hbd]
      dsimp only
      rcases hdg with h | h
      · rw [h]
      · rw [h]
        rfl
    rw [hres]
    exact ⟨rfl, rfl, rfl, rfl⟩

theorem pySplitCore_append_r (sep rest a : List Char) (hsep : sep ≠ [])
    (h : SepCleanB sep a = true) :
    pySplitCore sep (a ++ (sep ++ rest)) = a :: pySplitCore sep rest := by
  rw [← List.append_assoc]
  exact pySplitCore_append sep rest hsep a h

theorem pySplit1_append_r (sep rest a : List Char) (hsep : sep ≠ [])
    (h : SepCleanB sep a = true) :
    pySplit1 sep (a ++ (sep ++ rest)) = some (a, rest) := by
  rw [← List.append_assoc]
  exact pySplit1_append sep rest hsep a h

theorem isInfixB_mid (sub post : List Char) (hs : sub ≠ []) :
    ∀ pre, isInfixB sub (pre ++ (sub ++ post)) = true := by
  intro pre
  induction pre with
  | nil =>
    cases sub with
    | nil => exact absurd rfl hs
    | cons c cs =>
      show isInfixB (c :: cs) ((c :: cs) ++ post) = true
      have hstep : (c :: cs) ++ post = c :: (cs ++ post) := rfl
      rw [hstep]
      unfold isInfixB
      rw [← hstep, prefB_self_append]
      rfl
  | cons c pre' ih =>
    show isInfixB sub (c :: (pre' ++ (sub ++ post))) = true
    unfold isInfixB
    rw [ih]
    exact Bool.or_true _

theorem sepCleanB_nil (sep : List Char) : SepCleanB sep [] = true := by
  simp [SepCleanB]

theorem noOccB_twoDash (b : List Char) (hb : b ≠ []) :
    NoOccB (twoDash ++ b) twoDash = true := by
  cases b with
  | nil => exact absurd rfl hb
  | cons c bs =>
    simp [NoOccB, twoDash, List.tails, prefB]

/-- The name attribute of the prompt part in the canonical body. -/
def promptNm : List Char := "; name=\"prompt\"".data

/-- The name attribute of the image part in the canonical body. -/
def imageNm : List Char := "; name=\"image\"".data

/-- One segment of a canonical multipart body: line break, the
form-data header with the given name attribute, the blank-line
separator, the field's value and a final line break. -/
def mkPart (nm v : List Char) : List Char :=
  crlf ++ (cdMarker ++ (nm ++ (crlf2 ++ (v ++ crlf))))

/-- A canonical two-part multipart body: a prompt part, an image part
and the closing two-dash delimiter, all separated by the boundary
delimiter built from token b. -/
def mkTwoPartBody (b vP vI : List Char) : List Char :=
  (twoDash ++ b) ++ (mkPart promptNm vP ++
    ((twoDash ++ b) ++ (mkPart imageNm vI ++ ((twoDash ++ b) ++ twoDash))))

/-- The field key of the image part. -/
def imageKey : List Char := ['i', 'm', 'a', 'g', 'e']

/-- C3: for a multipart body of the canonical two-part shape (a prompt
part and an image part, whatever the image part holds) reaching
/generate with a content type that declares multipart form data without
a boundary parameter, the manual fallback parse recovers the prompt
field's value exactly — the bytes between the part's blank-line
separator and the next boundary delimiter, stripped of surrounding
whitespace — the image part is never handed to processing, and the
request proceeds in text-only mode.  The side conditions say the body
is well formed: the boundary token is non-empty and free of line
breaks, neither part's text collides with the boundary delimiter, and
the prompt value embeds no boundary-delimiter start and is not all
whitespace. -/
theorem c3_fallback_recovery (env : Env) (st : Store) (ct : String)
    (fm : Except String (List (String × FormValue))) (b vP vI : List Char)
    (hb : b ≠ [])
    (hct : fbCond ct = true)
    (hbClean : SepCleanB crlf (twoDash ++ b) = true)
    (h1 : SepCleanB (twoDash ++ b) (mkPart promptNm vP) = true)
    (h2 : SepCleanB (twoDash ++ b) (mkPart imageNm vI) = true)
    (hvP : NoOccB crlfDashDash (vP ++ crlf) = true)
    (hne : pyStrip vP ≠ []) :
    dictGet (fallbackFields (mkTwoPartBody b vP vI)) promptKey
      = some (pyStrip vP) ∧
    (generateEndpoint env st ⟨ct, mkTwoPartBody b vP vI, fm⟩).usedFallback
      = true ∧
    (generateEndpoint env st ⟨ct, mkTwoPartBody b vP vI, fm⟩).promptOut
      = (⟨pyStrip vP⟩ : String) ∧
    (generateEndpoint env st ⟨ct, mkTwoPartBody b vP vI, fm⟩).attachmentPassed
      = none ∧
    ingestMode (generateEndpoint env st ⟨ct, mkTwoPartBody b vP vI, fm⟩)
      = IngestMode.TextOnly := by
  have hsepne : (twoDash ++ b) ≠ [] := by simp [twoDash]
  have hcrlfne : crlf ≠ [] := by decide
  have hshape1 : mkTwoPartBody b vP vI
      = (twoDash ++ b) ++ (crlf ++ (cdMarker ++ (promptNm ++ (crlf2 ++ (vP ++
          (crlf ++ ((twoDash ++ b) ++ (mkPart imageNm vI ++
            ((twoDash ++ b) ++ twoDash))))))))) := by
    simp [mkTwoPartBody, mkPart, List.append_assoc]
  have hfl : (pySplitCore crlf (mkTwoPartBody b vP vI)).headD []
      = twoDash ++ b := by
    rw [hshape1, pySplitCore_append_r crlf _ _ hcrlfne hbClean]
    rfl
  have hdrop : (twoDash ++ b).drop 2 = b := by
    show List.drop twoDash.length (twoDash ++ b) = b
    exact List.drop_left _ _
  have hparts : pySplitCore (twoDash ++ b) (mkTwoPartBody b vP vI)
      = [[], mkPart promptNm vP, mkPart imageNm vI, twoDash] := by
    show pySplitCore (twoDash ++ b)
        ([] ++ ((twoDash ++ b) ++ (mkPart promptNm vP ++ ((twoDash ++ b) ++
          (mkPart imageNm vI ++ ((twoDash ++ b) ++ twoDash)))))) = _
    rw [pySplitCore_append_r _ _ _ hsepne (sepCleanB_nil _)]
    rw [pySplitCore_append_r _ _ _ hsepne h1]
    rw [pySplitCore_append_r _ _ _ hsepne h2]
    rw [pySplitCore_no_occ _ _ (noOccB_twoDash b hb)]
  have hv1 : extractValue (mkPart promptNm vP) = pyStrip vP := by
    have e1 : pySplit1 crlf2 (mkPart promptNm vP)
        = some (crlf ++ (cdMarker ++ promptNm), vP ++ crlf) := rfl
    unfold extractValue
    rw [e1]
    dsimp only
    rw [pySplitCore_no_occ _ _ hvP]
    show pyStrip (vP ++ crlf) = pyStrip vP
    exact pyStrip_append_ws vP crlf (by decide)
  have hfields : parseFields [[], mkPart promptNm vP, mkPart imageNm vI, twoDash]
      = [(promptKey, pyStrip vP),
         (imageKey, extractValue (mkPart imageNm vI))] := by
    have hcd1 : isInfixB cdMarker (mkPart promptNm vP) = true :=
      isInfixB_mid cdMarker _ (by decide) crlf
    have hcd2 : isInfixB cdMarker (mkPart imageNm vI) = true :=
      isInfixB_mid cdMarker _ (by decide) crlf
    have hn1 : reSearchName (mkPart promptNm vP) = some promptKey := rfl
    have hn2 : reSearchName (mkPart imageNm vI) = some imageKey := rfl
    unfold parseFields
    simp only [List.foldl_cons, List.foldl_nil]
    simp [hcd1, hcd2, hn1, hn2, hv1,
      show isInfixB cdMarker [] = false from rfl,
      show isInfixB cdMarker twoDash = false from by decide]
  have hff : fallbackFields (mkTwoPartBody b vP vI)
      = [(promptKey, pyStrip vP),
         (imageKey, extractValue (mkPart imageNm vI))] := by
    unfold fallbackFields
    dsimp only
    rw [hfl, hdrop, hparts, hfields]
  have hdg : dictGet (fallbackFields (mkTwoPartBody b vP vI)) promptKey
      = some (pyStrip vP) := by
    rw [hff]
    rfl
  have hdgM : dictGet (fallbackFields (mkTwoPartBody b vP vI)) modelKey
      = none := by
    rw [hff]
    rfl
  have hbody : prefB twoDash (mkTwoPartBody b vP vI) = true := by
    unfold mkTwoPartBody
    rw [List.append_assoc]
    exact prefB_self_append _ _
  have hie : (pyStrip vP).isEmpty = false := by
    cases hsv : pyStrip vP with
    | nil => exact absurd hsv hne
    | cons c l => rfl
  have hres : generateEndpoint env st ⟨ct, mkTwoPartBody b vP vI, fm⟩
      = (let pr := safe_generate_handler env st
            (⟨pyStrip vP⟩ : String) MODEL_NAME none
         (⟨200, pr.1.success, pr.1.message, (⟨pyStrip vP⟩ : String), true,
           pr.1.backendCalled, none, pr.1.store⟩ : GenResult)) := by
    show (if fbCond ct = true then fallbackBranch env st (mkTwoPartBody b vP vI)
      else match fm with
        | Except.ok form => primaryBranch env st form
        | Except.error e =>
          ⟨200, false, "请求处理失败: " ++ e, "", false, false, none, st⟩) = _
    rw [if_pos hct]
    unfold fallbackBranch
    rw [if_pos hbody]
    dsimp only
    rw [hdg, hdgM]
    dsimp only
    rw [if_neg (by rw [hie]; exact Bool.false_ne_true)]
  refine ⟨hdg, ?_, ?_, ?_, ?_⟩ <;> rw [hres] <;> rfl

/-- C3 witness: the canonical body with boundary token X, prompt value
padded with spaces and an opaque image payload, evaluated. -/
theorem c3_fallback_recovery_witness :
    dictGet (fallbackFields (mkTwoPartBody "X".data " hello ".data "IMG".data))
      promptKey = some (pyStrip " hello ".data) ∧
    (generateEndpoint cEnvP cStoreU ⟨"multipart/form-data",
      mkTwoPartBody "X".data " hello ".data "IMG".data,
      Except.ok []⟩).usedFallback = true ∧
    (generateEndpoint cEnvP cStoreU ⟨"multipart/form-data",
      mkTwoPartBody "X".data " hello ".data "IMG".data,
      Except.ok []⟩).promptOut = (⟨pyStrip " hello ".data⟩ : String) ∧
    (generateEndpoint cEnvP cStoreU ⟨"multipart/form-data",
      mkTwoPartBody "X".data " hello ".data "IMG".data,
      Except.ok []⟩).attachmentPassed = none ∧
    ingestMode (generateEndpoint cEnvP cStoreU ⟨"multipart/form-data",
      mkTwoPartBody "X".data " hello ".data "IMG".data,
      Except.ok []⟩) = IngestMode.TextOnly :=
  c3_fallback_recovery cEnvP cStoreU "multipart/form-data" (Except.ok [])
    "X".data " hello ".data "IMG".data
    (by decide) (by decide) (by decide) (by decide) (by decide) (by decide)
    (by decide)
